import Mathlib

/-!
Shallow embedding of the field-resolution and time-series construction layer
of the fitkit repository (src/merge_fit.py and src/pm5_readout.py).

Python objects are duck-typed; the embedding models the exact attribute
shapes the code probes:
  * a decoded message is a bag of named attributes plus an optional
    `fields` collection;
  * a field entry optionally carries `name`, `value` and `raw_value`
    attributes (an absent attribute is distinct from one holding None);
  * Python values that flow through this layer are None, ints, strings,
    datetimes, or wrapper objects exposing a `.value` accessor.

A Python datetime is modelled by its wall-clock instant in milliseconds
since the Unix epoch together with its awareness flag (tzinfo attached or
not); all aware datetimes produced here carry UTC.  The float division
`int(x) / 1000` inside `datetime.fromtimestamp` is modelled exactly
(milliseconds are preserved), which agrees with the source for every
input on which the float quotient is exact.
-/

/-- A Python datetime: `ms` is the wall-clock instant in milliseconds since
the Unix epoch, `aware` records whether tzinfo (UTC here) is attached. -/
structure Dtm where
  ms : Int
  aware : Bool
deriving DecidableEq, Repr

/-- The Python values that flow through the field-resolution layer. -/
inductive PyVal where
  | none
  | int (n : Int)
  | str (s : String)
  | dtm (d : Dtm)
  | wrapper (v : PyVal)
deriving DecidableEq, Repr

/-- The accepted input shapes of `_as_dt` (signature
`Union[int, float, dt.datetime, None]`; the claims only exercise the
`None`, datetime and integer shapes). -/
inductive TsInput where
  | none
  | dtm (d : Dtm)
  | int (n : Int)
deriving DecidableEq, Repr

/-- `merge_fit._as_dt`: `None` passes through; a datetime is returned
unchanged when aware, else UTC is attached without shifting the wall
clock (`x.replace(tzinfo=UTC)`); an integer is read as Unix epoch
milliseconds and converted by `dt.datetime.fromtimestamp(int(x)/1000,
tz=UTC)`, i.e. the aware UTC instant at that many milliseconds. -/
def _as_dt : TsInput → Option Dtm
  | TsInput.none => Option.none
  | TsInput.dtm d => some (if d.aware then d else { d with aware := true })
  | TsInput.int n => some ⟨n, true⟩

/-- A field entry of a message's `fields` collection.  `name` models
`getattr(f, "name", None)`; `value = Option.none` models
`hasattr(f, "value") == False` (and likewise `raw_value`), while
`some PyVal.none` models an attribute that is present and holds None. -/
structure FitField where
  name : Option String
  value : Option PyVal
  raw_value : Option PyVal
deriving DecidableEq, Repr

/-- A decoded message: its named attributes (`getattr`/`hasattr` consult
this association list, first binding wins) and its optional `fields`
collection (`Option.none` models `hasattr(msg, "fields") == False`). -/
structure Message where
  attrs : List (String × PyVal)
  fields : Option (List FitField)
deriving DecidableEq, Repr

/-- Attribute lookup: `some v` iff `hasattr(m, name)`, in which case
`getattr(m, name) = v`. -/
def lookupAttr : List (String × PyVal) → String → Option PyVal
  | [], _ => Option.none
  | (k, v) :: rest, name => if k = name then some v else lookupAttr rest name

/-- `getattr(msg, name, None)` on a possibly-None message. -/
def getattrD (msg : Option Message) (name : String) : PyVal :=
  match msg with
  | Option.none => PyVal.none
  | some m => (lookupAttr m.attrs name).getD PyVal.none

/-- The `for f in msg.fields` loop body of
`merge_fit._field_value_from_fields`: on the first entry whose `name`
equals the requested name, return its `value` if that attribute exists,
else its `raw_value` if that exists, else None; scanning past
non-matching entries. -/
def _field_scan : List FitField → String → PyVal
  | [], _ => PyVal.none
  | f :: rest, fname =>
    if f.name = some fname then
      match f.value with
      | some v => v
      | Option.none =>
        match f.raw_value with
        | some v => v
        | Option.none => PyVal.none
    else _field_scan rest fname

/-- `merge_fit._field_value_from_fields`: None when the message is None or
has no `fields` attribute, otherwise the scan above. -/
def _field_value_from_fields (msg : Option Message) (field_name : String) : PyVal :=
  match msg with
  | Option.none => PyVal.none
  | some m =>
    match m.fields with
    | Option.none => PyVal.none
    | some fs => _field_scan fs field_name

/-- `merge_fit.msg_value`: None for a None message; the direct attribute
when `hasattr(msg, field_name)` (returned unchanged, no unwrapping);
otherwise the `_field_value_from_fields` fallback. -/
def msg_value (msg : Option Message) (field_name : String) : PyVal :=
  match msg with
  | Option.none => PyVal.none
  | some m =>
    match lookupAttr m.attrs field_name with
    | some v => v
    | Option.none => _field_value_from_fields (some m) field_name

/-- `pm5_readout.field_by_name`: the first Field object in `msg.fields`
whose `name` matches, or None. -/
def findFieldByName : List FitField → String → Option FitField
  | [], _ => Option.none
  | f :: rest, n => if f.name = some n then some f else findFieldByName rest n

/-- `pm5_readout.field_by_name` lifted over a possibly-None message. -/
def field_by_name (msg : Option Message) (name : String) : Option FitField :=
  match msg with
  | Option.none => Option.none
  | some m =>
    match m.fields with
    | Option.none => Option.none
    | some fs => findFieldByName fs name

/-- `pm5_readout.value_from_msg`: the direct attribute, unwrapped one
level when the attribute value itself exposes `.value`
(`hasattr(v, "value")` holds exactly for wrapper objects); otherwise the
matching field entry's `getattr(f, "value", None)`. -/
def value_from_msg (msg : Option Message) (name : String) : PyVal :=
  match msg with
  | Option.none => PyVal.none
  | some m =>
    match lookupAttr m.attrs name with
    | some v =>
      match v with
      | PyVal.wrapper w => w
      | _ => v
    | Option.none =>
      match field_by_name (some m) name with
      | Option.none => PyVal.none
      | some f => f.value.getD PyVal.none

/-- One entry of `ff.records`: `is_definition` models
`getattr(rec.header, "is_definition", False)`, `message` is
`rec.message` (possibly None; `msg_value` guards for that). -/
structure FitRecord where
  is_definition : Bool
  message : Option Message
deriving DecidableEq, Repr

/-- Python `int(v)`: identity on ints, parses numeric strings, raises
`TypeError`/`ValueError` (here: `Option.none`) on None, datetimes and
wrapper objects. -/
def pyToInt : PyVal → Option Int
  | PyVal.int n => some n
  | PyVal.str s => s.toInt?
  | _ => Option.none

/-- Python dict assignment `d[k] = v`: overwrite in place when the key is
present (insertion order kept), else append at the end. -/
def dictInsert (m : List (Dtm × Int)) (k : Dtm) (v : Int) : List (Dtm × Int) :=
  if m.any (fun p => p.1 = k) then
    m.map (fun p => if p.1 = k then (k, v) else p)
  else m ++ [(k, v)]

/-- The exceptions `extract_polar_hr_series` can raise: the
`UnboundLocalError` from reading `ts` before any record assigned it, the
`TypeError`/`ValueError` from `int(hr)` on a non-coercible value, and the
`RuntimeError("No record-level HR found in Polar FIT. ...")` raised when
the pass extracted zero samples. -/
inductive ExtractError where
  | unboundLocal
  | intCoercion
  | emptyResult
deriving DecidableEq, Repr

/-- The loop-carried state of `extract_polar_hr_series`.  `tsVar` models
the function-local variable `ts`, which Python scopes to the whole
function: `Option.none` means not yet assigned (reading it raises
`UnboundLocalError`); `some v` means it holds `v`, itself an optional
datetime since `ts = _as_dt(raw_ts)`. -/
structure LoopState where
  hr_by_time : List (Dtm × Int)
  record_msgs : Nat
  record_with_hr : Nat
  tsVar : Option (Option Dtm)
deriving DecidableEq, Repr

/-- The value the local `ts` holds after the guarded assignment
`if isinstance(raw_ts, int): ts = _as_dt(raw_ts)`: freshly assigned when
the raw timestamp is an int, otherwise whatever it held before (possibly
still unbound). -/
def nextTsVar (prev : Option (Option Dtm)) (raw_ts : PyVal) : Option (Option Dtm) :=
  match raw_ts with
  | PyVal.int n => some (_as_dt (TsInput.int n))
  | _ => prev

/-- One iteration of the `for rec in ff.records` loop of
`extract_polar_hr_series`: skip definition records; skip messages not
named "record"; count the record; reassign `ts` only when the resolved
raw timestamp is an int (otherwise the previous value, possibly unbound,
persists); resolve heart rate; skip when `ts` or `hr` is None; else
count and store `int(hr)` under `ts`. -/
def extractStep (st : LoopState) (rec : FitRecord) : Except ExtractError LoopState :=
  if rec.is_definition then Except.ok st
  else
    let msg := rec.message
    if getattrD msg "name" ≠ PyVal.str "record" then Except.ok st
    else
      let msgs := st.record_msgs + 1
      let raw_ts := msg_value msg "timestamp"
      let tsVar : Option (Option Dtm) := nextTsVar st.tsVar raw_ts
      let hr := msg_value msg "heart_rate"
      match tsVar with
      | Option.none => Except.error ExtractError.unboundLocal
      | some ts =>
        match ts with
        | Option.none =>
          Except.ok { st with record_msgs := msgs, tsVar := tsVar }
        | some t =>
          if hr = PyVal.none then
            Except.ok { st with record_msgs := msgs, tsVar := tsVar }
          else
            match pyToInt hr with
            | Option.none => Except.error ExtractError.intCoercion
            | some h =>
              Except.ok { hr_by_time := dictInsert st.hr_by_time t h,
                          record_msgs := msgs,
                          record_with_hr := st.record_with_hr + 1,
                          tsVar := tsVar }

/-- The whole `for` loop, threading the state; an exception aborts it. -/
def extractLoop : LoopState → List FitRecord → Except ExtractError LoopState
  | st, [] => Except.ok st
  | st, r :: rs =>
    match extractStep st r with
    | Except.error e => Except.error e
    | Except.ok st2 => extractLoop st2 rs

/-- State at function entry: empty dict, zero counters, `ts` unbound. -/
def initState : LoopState := ⟨[], 0, 0, Option.none⟩

/-- `merge_fit.extract_polar_hr_series` on an already-decoded record list:
run the loop; raise the empty-result RuntimeError when the dict is empty;
otherwise print the three diagnostic counters and return the dict.  The
result pairs the returned mapping with the lines printed before
returning; an exception (the `Except.error` branch) is raised before any
counter is printed, so it carries no output. -/
def extract_polar_hr_series (recs : List FitRecord) :
    Except ExtractError (List (Dtm × Int) × List String) :=
  match extractLoop initState recs with
  | Except.error e => Except.error e
  | Except.ok st =>
    if st.hr_by_time = [] then Except.error ExtractError.emptyResult
    else
      Except.ok (st.hr_by_time,
        ["[Polar] record messages: " ++ toString st.record_msgs,
         "[Polar] records with HR: " ++ toString st.record_with_hr,
         "[Polar] HR samples extracted: " ++ toString st.hr_by_time.length])

/-- Test-input builder: a non-definition "record" message whose attributes
optionally include a timestamp and a heart-rate value (no `fields`
collection). -/
def recMsg (ts hr : Option PyVal) : FitRecord :=
  { is_definition := false,
    message := some
      { attrs := [("name", PyVal.str "record")]
          ++ (match ts with | some v => [("timestamp", v)] | Option.none => [])
          ++ (match hr with | some v => [("heart_rate", v)] | Option.none => []),
        fields := Option.none } }

/-- Civil calendar date from a day count since 1970-01-01 (proleptic
Gregorian), used to express a modelled instant in calendar form. -/
def civilFromDays (z0 : Int) : Int × Int × Int :=
  let z := z0 + 719468
  let era := z.fdiv 146097
  let doe := z - era * 146097
  let yoe := (doe - doe / 1460 + doe / 36524 - doe / 146096) / 365
  let y := yoe + era * 400
  let doy := doe - (365 * yoe + yoe / 4 - yoe / 100)
  let mp := (5 * doy + 2) / 153
  let d := doy - (153 * mp + 2) / 5 + 1
  let m := mp + (if mp < 10 then 3 else -9)
  (y + (if m ≤ 2 then 1 else 0), m, d)

/-- The (year, month, day, hour, minute, second) UTC reading of an epoch
instant given in milliseconds. -/
def civilOfMs (ms : Int) : Int × Int × Int × Int × Int × Int :=
  let s := ms.fdiv 1000
  let days := s.fdiv 86400
  let secOfDay := s.emod 86400
  let c := civilFromDays days
  (c.1, c.2.1, c.2.2, secOfDay.fdiv 3600, (secOfDay.emod 3600).fdiv 60,
    secOfDay.emod 60)

/-! ## Helper lemmas -/

/-- A definition record leaves the loop state untouched. -/
theorem extractStep_def_skip (st : LoopState) (r : FitRecord)
    (h : r.is_definition = true) : extractStep st r = Except.ok st := by
  simp [extractStep, h]

/-- Removing the definition records from the input does not change the
result of the extraction loop. -/
theorem extractLoop_filter_defs (recs : List FitRecord) :
    ∀ st, extractLoop st (recs.filter (fun r => !r.is_definition)) =
      extractLoop st recs := by
  induction recs with
  | nil => intro st; rfl
  | cons r rs ih =>
    intro st
    cases hdef : r.is_definition with
    | true =>
      rw [List.filter_cons]
      simp only [hdef, Bool.not_true, Bool.false_eq_true, if_false]
      conv_rhs => rw [extractLoop]
      rw [extractStep_def_skip st r hdef]
      exact ih st
    | false =>
      rw [List.filter_cons]
      simp only [hdef, Bool.not_false, if_true]
      rw [extractLoop, extractLoop]
      cases hstep : extractStep st r with
      | error e => rfl
      | ok st2 => exact ih st2

/-- Scanning a field list none of whose entries carry the requested name
yields None. -/
theorem _field_scan_eq_none (f : String) :
    ∀ fs : List FitField, (∀ fd ∈ fs, fd.name ≠ some f) →
      _field_scan fs f = PyVal.none := by
  intro fs
  induction fs with
  | nil => intro _; rfl
  | cons fd rest ih =>
    intro h
    have h1 : fd.name ≠ some f := h fd (List.mem_cons_self _ _)
    simp only [_field_scan, if_neg h1]
    exact ih (fun x hx => h x (List.mem_cons_of_mem _ hx))

/-- Every entry of `dictInsert m k v` is the freshly written pair or an
entry of `m`. -/
theorem mem_dictInsert (m : List (Dtm × Int)) (k : Dtm) (v : Int)
    (p : Dtm × Int) (h : p ∈ dictInsert m k v) : p = (k, v) ∨ p ∈ m := by
  unfold dictInsert at h
  by_cases hc : (m.any fun q => q.1 = k) = true
  · rw [if_pos hc] at h
    obtain ⟨q, hq, he⟩ := List.mem_map.mp h
    by_cases hqk : q.1 = k
    · left; rw [← he, if_pos hqk]
    · right; rw [← he, if_neg hqk]; exact hq
  · rw [if_neg hc] at h
    rcases List.mem_append.mp h with h1 | h2
    · right; exact h1
    · left; simpa using h2

/-- Invariant of the extraction loop: every key already stored is an
aware (UTC) datetime, and so is the datetime held by the local `ts`
whenever it is bound. -/
def awareInv (st : LoopState) : Prop :=
  (∀ p ∈ st.hr_by_time, p.1.aware = true) ∧
  (∀ d : Dtm, st.tsVar = some (some d) → d.aware = true)

/-- `nextTsVar` keeps the awareness of a bound `ts`: it either freshly
assigns an aware UTC datetime or leaves the previous value in place. -/
theorem nextTsVar_aware (prev : Option (Option Dtm)) (raw : PyVal)
    (hprev : ∀ d : Dtm, prev = some (some d) → d.aware = true) :
    ∀ d : Dtm, nextTsVar prev raw = some (some d) → d.aware = true := by
  intro d hd
  cases raw with
  | int n =>
    simp only [nextTsVar, _as_dt, Option.some.injEq] at hd
    rw [← hd]
  | none => exact hprev d hd
  | str s => exact hprev d hd
  | dtm d0 => exact hprev d hd
  | wrapper v => exact hprev d hd

/-- One loop iteration preserves the awareness invariant. -/
theorem extractStep_aware (st st' : LoopState) (r : FitRecord)
    (h : extractStep st r = Except.ok st') (hinv : awareInv st) :
    awareInv st' := by
  obtain ⟨hkeys, hts⟩ := hinv
  simp only [extractStep] at h
  by_cases hdef : r.is_definition = true
  · rw [if_pos hdef] at h; cases h; exact ⟨hkeys, hts⟩
  rw [if_neg hdef] at h
  by_cases hname : getattrD r.message "name" ≠ PyVal.str "record"
  · rw [if_pos hname] at h; cases h; exact ⟨hkeys, hts⟩
  rw [if_neg hname] at h
  have haw := nextTsVar_aware st.tsVar (msg_value r.message "timestamp") hts
  revert haw h
  generalize nextTsVar st.tsVar (msg_value r.message "timestamp") = tsv
  intro h haw
  cases tsv with
  | none => cases h
  | some ts =>
    cases ts with
    | none =>
      cases h
      refine ⟨hkeys, ?_⟩
      intro d hd
      simp at hd
    | some t =>
      have ht : t.aware = true := haw t rfl
      by_cases hhr : msg_value r.message "heart_rate" = PyVal.none
      · simp only [hhr, eq_self_iff_true, if_true] at h
        cases h
        refine ⟨hkeys, ?_⟩
        intro d hd
        simp only [Option.some.injEq] at hd
        rw [← hd]
        exact ht
      · simp only [if_neg hhr] at h
        cases hc : pyToInt (msg_value r.message "heart_rate") with
        | none => rw [hc] at h; cases h
        | some hval =>
          rw [hc] at h
          cases h
          constructor
          · intro p hp
            rcases mem_dictInsert _ _ _ _ hp with h1 | h2
            · rw [h1]; exact ht
            · exact hkeys p h2
          · intro d hd
            simp only [Option.some.injEq] at hd
            rw [← hd]
            exact ht

/-- The whole loop preserves the awareness invariant. -/
theorem extractLoop_aware :
    ∀ (recs : List FitRecord) (st st' : LoopState),
      extractLoop st recs = Except.ok st' → awareInv st → awareInv st' := by
  intro recs
  induction recs with
  | nil => intro st st' h hinv; cases h; exact hinv
  | cons r rs ih =>
    intro st st' h hinv
    rw [extractLoop] at h
    cases hstep : extractStep st r with
    | error e => rw [hstep] at h; cases h
    | ok st2 =>
      rw [hstep] at h
      exact ih st2 st' h (extractStep_aware st st2 r hstep hinv)

/-! ## Claim theorems -/

/-- C1: the claim says a matching record contributes a sample iff both its
resolved timestamp and quantity are non-absent, and never one keyed by an
earlier record's timestamp.  The code contradicts this: `ts` is assigned
only under `isinstance(raw_ts, int)`, so a record whose resolved
timestamp is absent keeps the previous record's `ts` and, when it carries
a heart rate, overwrites the series at that stale key.  Evaluating the
extractor on a record with timestamp 1000 ms / HR 120 followed by a
record with no timestamp and HR 125: the second record contributes, and
the single stored sample is 125 under the first record's timestamp. -/
theorem C1_stale_timestamp_eval :
    extract_polar_hr_series
      [recMsg (some (PyVal.int 1000)) (some (PyVal.int 120)),
       recMsg Option.none (some (PyVal.int 125))] =
    Except.ok ([(⟨1000, true⟩, 125)],
      ["[Polar] record messages: 2",
       "[Polar] records with HR: 2",
       "[Polar] HR samples extracted: 1"]) := rfl

/-- C2, counterexample to the claim as stated: (a) on the direct-attribute
path `merge_fit.msg_value` does not unwrap a value-wrapper (it returns
the wrapper itself, not the claimed unwrapped 120); (b) on the fallback
path `pm5_readout.value_from_msg` does not fall back to `.raw_value`
(it returns absent where the claim requires 7). -/
theorem C2_claimed_resolver_counterexample :
    (msg_value
        (some ⟨[("heart_rate", PyVal.wrapper (PyVal.int 120))], Option.none⟩)
        "heart_rate" = PyVal.wrapper (PyVal.int 120) ∧
      PyVal.wrapper (PyVal.int 120) ≠ PyVal.int 120) ∧
    (value_from_msg
        (some ⟨[], some [⟨some "power", Option.none, some (PyVal.int 7)⟩]⟩)
        "power" = PyVal.none ∧
      PyVal.none ≠ PyVal.int 7) := by
  refine ⟨⟨rfl, ?_⟩, ⟨rfl, ?_⟩⟩ <;> decide

/-- C2, amended: both resolvers follow the two-tier order, but the
wrapper unwrapping happens only in `pm5_readout.value_from_msg` (the
merge path returns the direct attribute unchanged), and the
`.raw_value` fallback happens only in `merge_fit.msg_value` (the pm5
fallback reads the field's `.value` or yields absent). -/
theorem C2_two_tier_resolution (m : Message) (f : String) :
    (∀ v, lookupAttr m.attrs f = some v →
        msg_value (some m) f = v ∧
        value_from_msg (some m) f =
          (match v with | PyVal.wrapper w => w | _ => v)) ∧
    (lookupAttr m.attrs f = Option.none →
        msg_value (some m) f = _field_scan (m.fields.getD []) f ∧
        value_from_msg (some m) f =
          (match findFieldByName (m.fields.getD []) f with
           | some fd => fd.value.getD PyVal.none
           | Option.none => PyVal.none)) := by
  constructor
  · intro v hv
    constructor
    · simp only [msg_value, hv]
    · cases v <;> simp only [value_from_msg, hv]
  · intro hnone
    constructor
    · simp only [msg_value, hnone, _field_value_from_fields]
      cases m.fields <;> rfl
    · cases hmf : m.fields with
      | none =>
        simp only [value_from_msg, hnone, field_by_name, hmf]
        rfl
      | some fs =>
        cases hfind : findFieldByName fs f <;>
          simp [value_from_msg, hnone, field_by_name, hmf, hfind]

/-- Witness for C2: applying the amended resolution theorem to a message
whose `heart_rate` attribute holds the plain int 99. -/
theorem C2_two_tier_resolution_witness :
    msg_value (some ⟨[("heart_rate", PyVal.int 99)], Option.none⟩)
      "heart_rate" = PyVal.int 99 ∧
    value_from_msg (some ⟨[("heart_rate", PyVal.int 99)], Option.none⟩)
      "heart_rate" = PyVal.int 99 :=
  (C2_two_tier_resolution ⟨[("heart_rate", PyVal.int 99)], Option.none⟩
    "heart_rate").1 (PyVal.int 99) rfl

/-- C3: the claim says every zero-sample pass ends in the
EmptyResultError-equivalent RuntimeError.  The code contradicts it: a
data record with an absent timestamp and a present heart rate makes the
pass raise UnboundLocalError (reading `ts` before any assignment), which
is not the empty-result error, even though zero samples were
extracted. -/
theorem C3_unbound_local_eval :
    extract_polar_hr_series [recMsg Option.none (some (PyVal.int 120))] =
      Except.error ExtractError.unboundLocal ∧
    ExtractError.unboundLocal ≠ ExtractError.emptyResult := by
  exact ⟨rfl, by decide⟩

/-- C4: the Timestamp Normalizer is idempotent on integer input: feeding
the normalized result back in returns it unchanged, because an aware
datetime is returned as is. -/
theorem C4_normalizer_idempotent :
    ∀ t : Int,
      (_as_dt (TsInput.int t)).bind (fun d => _as_dt (TsInput.dtm d)) =
        _as_dt (TsInput.int t) ∧
      _as_dt (TsInput.dtm ⟨t, true⟩) = some ⟨t, true⟩ :=
  fun _ => ⟨rfl, rfl⟩

/-- C5: an integer input is read as milliseconds since the Unix epoch and
becomes the aware UTC instant at exactly that many milliseconds (i.e. at
t/1000 seconds) past the epoch; in particular 1700000000000 denotes
2023-11-14 22:13:20 UTC. -/
theorem C5_normalizer_epoch_millis :
    (∀ t : Int, _as_dt (TsInput.int t) = some ⟨t, true⟩) ∧
    _as_dt (TsInput.int 1700000000000) = some ⟨1700000000000, true⟩ ∧
    civilOfMs 1700000000000 = (2023, 11, 14, 22, 13, 20) :=
  ⟨fun _ => rfl, rfl, by decide⟩

/-- C6: the claim says that of two qualifying records sharing a canonical
timestamp, the later one determines the final stored value.  The code
contradicts it: a later record with an absent timestamp inherits the
stale `ts` and overwrites the key.  Records (ts=1000 ms, hr=120),
(ts=1000 ms, hr=121), (no ts, hr=99): the claim predicts a final value
of 121, but the code stores 99 at that timestamp. -/
theorem C6_stale_overwrite_eval :
    extract_polar_hr_series
      [recMsg (some (PyVal.int 1000)) (some (PyVal.int 120)),
       recMsg (some (PyVal.int 1000)) (some (PyVal.int 121)),
       recMsg Option.none (some (PyVal.int 99))] =
    Except.ok ([(⟨1000, true⟩, 99)],
      ["[Polar] record messages: 3",
       "[Polar] records with HR: 3",
       "[Polar] HR samples extracted: 1"]) ∧
    (99 : Int) ≠ 121 := by
  exact ⟨rfl, by decide⟩

/-- C7: definition records never contribute: deleting them from the input
leaves the result of `extract_polar_hr_series` unchanged, regardless of
the message and fields they carry. -/
theorem C7_definition_records_no_samples (recs : List FitRecord) :
    extract_polar_hr_series (recs.filter (fun r => !r.is_definition)) =
      extract_polar_hr_series recs := by
  unfold extract_polar_hr_series
  rw [extractLoop_filter_defs recs initState]

/-- C8: the Field Resolver is total on its accepted inputs: it returns
absent (None) on a None message, and on any message that neither exposes
the field as an attribute nor names it in its field collection.  (In this
embedding `msg_value` is a total function, so no exception path exists at
all.) -/
theorem C8_resolver_total_absent (m : Message) (f : String)
    (h1 : lookupAttr m.attrs f = Option.none)
    (h2 : ∀ fd ∈ m.fields.getD [], fd.name ≠ some f) :
    msg_value (some m) f = PyVal.none ∧
    msg_value Option.none f = PyVal.none := by
  constructor
  · simp only [msg_value, h1, _field_value_from_fields]
    cases hf : m.fields with
    | none => rfl
    | some fs =>
      apply _field_scan_eq_none
      intro fd hfd
      exact h2 fd (by rw [hf]; exact hfd)
  · rfl

/-- Witness for C8: a message with an unrelated attribute and an
unrelated field entry resolves `heart_rate` to absent. -/
theorem C8_resolver_total_absent_witness :
    msg_value
      (some ⟨[("distance", PyVal.int 1)],
             some [⟨some "cadence", some (PyVal.int 80), Option.none⟩]⟩)
      "heart_rate" = PyVal.none ∧
    msg_value Option.none "heart_rate" = PyVal.none :=
  C8_resolver_total_absent
    ⟨[("distance", PyVal.int 1)],
     some [⟨some "cadence", some (PyVal.int 80), Option.none⟩]⟩
    "heart_rate" rfl (by decide)

/-- C9: every key of a successfully returned series is a timezone-aware
(UTC) datetime, and is exactly what the Timestamp Normalizer produces
from the integer millisecond count it carries; every stored value is an
integer by the `int(hr)` coercion (values have type Int here). -/
theorem C9_series_keys_aware (recs : List FitRecord)
    (r : List (Dtm × Int) × List String)
    (h : extract_polar_hr_series recs = Except.ok r) :
    ∀ p ∈ r.1, p.1.aware = true ∧ _as_dt (TsInput.int p.1.ms) = some p.1 := by
  intro p hp
  have hinv0 : awareInv initState := by
    constructor
    · intro q hq; cases hq
    · intro d hd; cases hd
  unfold extract_polar_hr_series at h
  cases hl : extractLoop initState recs with
  | error e => rw [hl] at h; cases h
  | ok st =>
    simp only [hl] at h
    by_cases he : st.hr_by_time = []
    · rw [if_pos he] at h; cases h
    · rw [if_neg he] at h
      have hst := extractLoop_aware recs initState st hl hinv0
      cases h
      have haw : p.1.aware = true := hst.1 p hp
      refine ⟨haw, ?_⟩
      obtain ⟨⟨ms, aw⟩, v⟩ := p
      simp only at haw
      rw [haw]
      rfl

/-- Witness for C9: the single-sample run on (ts=2000 ms, hr=88). -/
theorem C9_series_keys_aware_witness :
    (Dtm.mk 2000 true).aware = true ∧
    _as_dt (TsInput.int (Dtm.mk 2000 true).ms) = some (Dtm.mk 2000 true) :=
  C9_series_keys_aware
    [recMsg (some (PyVal.int 2000)) (some (PyVal.int 88))]
    ([(⟨2000, true⟩, 88)],
     ["[Polar] record messages: 1",
      "[Polar] records with HR: 1",
      "[Polar] HR samples extracted: 1"])
    rfl (⟨2000, true⟩, 88) (List.mem_singleton.mpr rfl)

/-- C10: the three diagnostic counters are printed exactly on the
successful path: when the pass ends with an empty dict the
empty-result error is raised first (the error branch carries no printed
lines), and when the call returns, the output is precisely the three
counter lines and the returned series is the loop's non-empty dict. -/
theorem C10_counters_iff_nonempty (recs : List FitRecord) (st : LoopState)
    (h : extractLoop initState recs = Except.ok st) :
    (st.hr_by_time = [] →
      extract_polar_hr_series recs = Except.error ExtractError.emptyResult) ∧
    (st.hr_by_time ≠ [] →
      extract_polar_hr_series recs =
        Except.ok (st.hr_by_time,
          ["[Polar] record messages: " ++ toString st.record_msgs,
           "[Polar] records with HR: " ++ toString st.record_with_hr,
           "[Polar] HR samples extracted: " ++
             toString st.hr_by_time.length])) := by
  constructor
  · intro he
    unfold extract_polar_hr_series
    simp only [h]
    rw [if_pos he]
  · intro hne
    unfold extract_polar_hr_series
    simp only [h]
    rw [if_neg hne]

/-- Witness for C10: the single-sample run on (ts=5000 ms, hr=77) returns
its sample together with the three counter lines. -/
theorem C10_counters_iff_nonempty_witness :
    extract_polar_hr_series
      [recMsg (some (PyVal.int 5000)) (some (PyVal.int 77))] =
    Except.ok ([(⟨5000, true⟩, 77)],
      ["[Polar] record messages: 1",
       "[Polar] records with HR: 1",
       "[Polar] HR samples extracted: 1"]) :=
  (C10_counters_iff_nonempty
    [recMsg (some (PyVal.int 5000)) (some (PyVal.int 77))]
    ⟨[(⟨5000, true⟩, 77)], 1, 1, some (some ⟨5000, true⟩)⟩
    rfl).2 (by decide)
